import Mathlib

/-!
# Verification of the hbbft message codec and message router

Shallow embedding of `src/proto/mod.rs` (protobuf conversions for consensus
messages) and `src/messaging.rs` (the local message delivery system), with
theorems settling the specification claims about them.

Byte strings are modelled as `List Nat`; the `ring` hash `Algorithm` (an
opaque `&'static` reference in the source) is modelled as an opaque `Nat`
tag; the generic payload type `T` with its `Into<Vec<u8>>`/`From<Vec<u8>>`
conversions is instantiated at byte strings with identity conversions.
Rust panics (assertion failures, `unwrap` on a failed send, integer
underflow) are modelled as explicit failure constructors.
-/

namespace Hbbft

/-- Byte strings (`Vec<u8>`). -/
abbrev Bytes := List Nat

/-- `merkle::proof::Positioned`: a sibling hash tagged with its position. -/
inductive Positioned where
  | left (hash : Bytes)
  | right (hash : Bytes)
deriving DecidableEq, Repr

/-- `merkle::proof::Lemma` (external merkle crate, as laid out in the spec's
data model): a recursive authentication path with a node hash, an optional
positioned sibling hash, and an optional sub-lemma. -/
inductive Lemma where
  | mk (node_hash : Bytes) (sibling_hash : Option Positioned)
       (sub_lemma : Option Lemma)

/-- The sibling hash component of a `Lemma`. -/
def Lemma.sibling_hash : Lemma → Option Positioned
  | .mk _ s _ => s

/-- `merkle::proof::Proof<T>` at `T = Bytes`: root hash, lemma, shard value,
plus the hash algorithm tag. -/
structure Proof where
  algorithm : Nat
  root_hash : Bytes
  lem : Lemma
  value : Bytes

/-- `Proof::new` (external merkle crate): plain construction from the four
components. -/
def Proof.new (algorithm : Nat) (root_hash : Bytes) (lem : Lemma)
    (value : Bytes) : Proof :=
  ⟨algorithm, root_hash, lem, value⟩

/-- Wire form of a lemma (`LemmaProto`): required `node_hash` bytes and three
optional fields whose protobuf presence bits are modelled by `Option`. -/
inductive LemmaProto where
  | mk (node_hash : Bytes) (left_sibling_hash : Option Bytes)
       (right_sibling_hash : Option Bytes) (sub_lemma : Option LemmaProto)

/-- Wire form of a proof (`ProofProto`). -/
structure ProofProto where
  root_hash : Bytes
  lem : Option LemmaProto
  value : Bytes

/-- `ProofProto::new()`: all fields at their protobuf defaults. -/
def ProofProto.newDefault : ProofProto := ⟨[], none, []⟩

/-- Wire form of a Value message. -/
structure ValueProto where
  proof : Option ProofProto

/-- `take_proof` on a `ValueProto`: the embedded proof, or the default
`ProofProto` when the field is absent (protobuf `take` semantics). -/
def ValueProto.take_proof (v : ValueProto) : ProofProto :=
  v.proof.getD ProofProto.newDefault

/-- Wire form of an Echo message. -/
structure EchoProto where
  proof : Option ProofProto

/-- `take_proof` on an `EchoProto`. -/
def EchoProto.take_proof (e : EchoProto) : ProofProto :=
  e.proof.getD ProofProto.newDefault

/-- Wire form of a Ready message. -/
structure ReadyProto where
  root_hash : Bytes

/-- Wire form of a broadcast message (`BroadcastProto`) with the three
optional variant fields. -/
structure BroadcastProto where
  value : Option ValueProto
  echo : Option EchoProto
  ready : Option ReadyProto

/-- Wire form of an agreement message (`AgreementProto`; the in-memory
`AgreementMessage` enum has no variants, so this proto carries no data in
this model). -/
structure AgreementProto where

/-- Wire form of a top-level message (`MessageProto`). -/
structure MessageProto where
  broadcast : Option BroadcastProto
  agreement : Option AgreementProto

/-- `AgreementMessage`: `pub enum AgreementMessage { // TODO }` — an enum
with no variants, hence an uninhabited type. -/
inductive AgreementMessage where

/-- The three kinds of message sent during reliable broadcast
(`BroadcastMessage<T>` at `T = Bytes`). -/
inductive BroadcastMessage where
  | Value (p : Proof)
  | Echo (p : Proof)
  | Ready (h : Bytes)

/-- Kinds of message sent by nodes participating in consensus
(`Message<T>` at `T = Bytes`). -/
inductive Message where
  | Broadcast (b : BroadcastMessage)
  | Agreement (a : AgreementMessage)

/-- Outcome of a decoding function that may return a value, return `None`,
or panic (the `Agreement` branch of `Message::from_proto` calls
`unimplemented!()`, which panics rather than returning). -/
inductive DecodeOutcome (α : Type) where
  | ok (a : α)
  | fail
  | panicked

/-- `LemmaProto::into_proto`: encode a `Lemma` onto the wire. The sibling
hash lands in `left_sibling_hash` or `right_sibling_hash` according to its
`Positioned` tag; the sub-lemma is encoded recursively when present. -/
def LemmaProto.into_proto : Lemma → LemmaProto
  | .mk node_hash sibling_hash sub_lemma =>
    .mk node_hash
      (match sibling_hash with
        | some (.left h) => some h
        | _ => none)
      (match sibling_hash with
        | some (.right h) => some h
        | _ => none)
      (match sub_lemma with
        | some l => some (LemmaProto.into_proto l)
        | none => none)

/-- `LemmaProto::from_proto`: decode a wire lemma. The left sibling field is
examined before the right; a present sub-lemma is decoded recursively and
its failure propagates (the source returns `Some` in every other case). -/
def LemmaProto.from_proto : LemmaProto → Option Lemma
  | .mk node_hash left_sib right_sib sub =>
    let sibling_hash : Option Positioned :=
      match left_sib, right_sib with
      | some h, _ => some (.left h)
      | none, some h => some (.right h)
      | none, none => none
    match sub with
    | some sp =>
        (LemmaProto.from_proto sp).map
          (fun sl => Lemma.mk node_hash sibling_hash (some sl))
    | none => some (Lemma.mk node_hash sibling_hash none)

/-- `ProofProto::into_proto`: encode a proof, dropping its algorithm. -/
def ProofProto.into_proto (proof : Proof) : ProofProto :=
  { root_hash := proof.root_hash
    lem := some (LemmaProto.into_proto proof.lem)
    value := proof.value }

/-- `ProofProto::from_proto`: `None` when the lemma field is absent;
otherwise decode the lemma and rebuild the proof via `Proof::new` with the
supplied algorithm. -/
def ProofProto.from_proto (self : ProofProto) (algorithm : Nat) :
    Option Proof :=
  match self.lem with
  | none => none
  | some lp =>
      (LemmaProto.from_proto lp).map
        (fun l => Proof.new algorithm self.root_hash l self.value)

/-- `BroadcastMessage::into_proto`. In the source's `Ready` arm a
`ReadyProto` is constructed and its root hash set, but `b.set_ready(r)` is
never called, so the returned `BroadcastProto` has none of its three
variant fields set; the embedding reproduces that behaviour. -/
def BroadcastMessage.into_proto : BroadcastMessage → BroadcastProto
  | .Value p => ⟨some ⟨some (ProofProto.into_proto p)⟩, none, none⟩
  | .Echo p => ⟨none, some ⟨some (ProofProto.into_proto p)⟩, none⟩
  | .Ready _ => ⟨none, none, none⟩

/-- `BroadcastMessage::from_proto`: the `value` field is checked first, then
`echo`, then `ready`; `None` when none of the three is set. -/
def BroadcastMessage.from_proto (mp : BroadcastProto) (algorithm : Nat) :
    Option BroadcastMessage :=
  match mp.value with
  | some vp => (vp.take_proof.from_proto algorithm).map .Value
  | none =>
    match mp.echo with
    | some ep => (ep.take_proof.from_proto algorithm).map .Echo
    | none =>
      match mp.ready with
      | some rp => some (.Ready rp.root_hash)
      | none => none

/-- `Message::into_proto`. The `Agreement` arm would call the unimplemented
`AgreementMessage::into_proto`, but `AgreementMessage` is uninhabited so
that arm is unreachable. -/
def Message.into_proto : Message → MessageProto
  | .Broadcast b => ⟨some b.into_proto, none⟩
  | .Agreement a => nomatch a

/-- `Message::from_proto`: broadcast checked first, then agreement (whose
decoder is `unimplemented!()` and panics), else `None`. -/
def Message.from_proto (algorithm : Nat) (proto : MessageProto) :
    DecodeOutcome Message :=
  match proto.broadcast with
  | some bp =>
    match BroadcastMessage.from_proto bp algorithm with
    | some b => .ok (.Broadcast b)
    | none => .fail
  | none =>
    match proto.agreement with
    | some _ => .panicked
    | none => .fail

/-! ## The local message delivery system (`src/messaging.rs`)

The router definitions are generic over a payload type `M` standing for the
source's `Message<T>`. Channel endpoints are modelled by predicates saying
which receive sides are still open: `crossbeam_channel::Sender::send`
returns `Err` exactly when the receiving side has been dropped, and the
routing loop calls `.unwrap()` on every send, so a send on a closed channel
is a panic. -/

/-- Message destination: all nodes, or node `i` (`Target`). -/
inductive Target where
  | All
  | Node (i : Nat)
deriving DecidableEq, Repr

/-- Message with a designated target (`TargetedMessage<T>`). -/
structure TargetedMessage (M : Type) where
  target : Target
  message : M
deriving DecidableEq, Repr

/-- `TargetedMessage::new`: initialises a message while checking parameter
preconditions — `Node(0)` is rejected because remote node indices start
from 1. -/
def TargetedMessage.new (target : Target) (message : M) :
    Option (TargetedMessage M) :=
  match target with
  | .Node 0 => none
  | _ => some ⟨target, message⟩

/-- Message sent by a given source (`SourcedMessage<T>`). -/
structure SourcedMessage (M : Type) where
  source : Nat
  message : M
deriving DecidableEq, Repr

/-- The messaging struct (`Messaging<T>`), reduced to the data the routing
claims depend on: the stored node count and the lengths of the two vectors
of transmit handles built by `Messaging::new`. -/
structure Messaging where
  num_nodes : Nat
  commsCount : Nat
  algoCount : Nat
deriving DecidableEq, Repr

/-- `Messaging::new(num_nodes)`: builds `num_nodes - 1` comms channels and
`num_nodes` algo channels. For `num_nodes = 0` the `usize` expression
`num_nodes - 1` underflows, which panics (modelled as `none`); otherwise
the constructed struct is returned. -/
def Messaging.new (num_nodes : Nat) : Option Messaging :=
  if num_nodes = 0 then none
  else some ⟨num_nodes, num_nodes - 1, num_nodes⟩

/-- One send performed by the routing loop: a message to a comms outbox, or
a sourced message to an algo inbox. -/
inductive Send (M : Type) where
  | toComms (i : Nat) (m : M)
  | toAlgo (i : Nat) (m : SourcedMessage M)
deriving DecidableEq, Repr

/-- One message arriving at the routing loop, from the algo side
(`from_algo_rx`) or from the comms side (`from_comms_rx`). -/
inductive RouteEvent (M : Type) where
  | fromAlgo (tm : TargetedMessage M)
  | fromComms (sm : SourcedMessage M)

/-- Result of processing one routing-loop message: either the loop
continues, having performed `sends` (with `routeError` true when the
"Target does not exist" error was logged), or the thread panicked (a failed
assertion, or `.unwrap()` on a send to a closed channel) after performing
`sends`. -/
inductive StepResult (M : Type) where
  | ok (sends : List (Send M)) (routeError : Bool)
  | panicked (sends : List (Send M))
deriving DecidableEq, Repr

/-- Fan-out over the channel indices `idxs` in order: each open channel
receives `mk i`; the first closed channel makes the `.unwrap()` panic,
abandoning the remaining sends. Returns the sends performed and whether a
panic occurred. -/
def trySends (isOpen : Nat → Bool) (mk : Nat → Send M) :
    List Nat → List (Send M) × Bool
  | [] => ([], false)
  | i :: rest =>
    if isOpen i then
      let (s, p) := trySends isOpen mk rest
      (mk i :: s, p)
    else ([], true)

/-- One iteration of the routing loop spawned by `Messaging::spawn`,
processing a single received message. `commsOpen i` (resp. `algoOpen i`)
says whether the receive side of `to_comms_txs[i]` (resp. `to_algo_txs[i]`)
is still open.

* `Target::All`: send a clone to every comms outbox.
* `Target::Node(i)`: `assert!(i > 0)` (panic at 0); then send to outbox
  `i - 1` when it exists, else log "Target does not exist" and continue.
* a `SourcedMessage` from comms: send a clone to every algo inbox. -/
def Messaging.routeStep (ms : Messaging) (commsOpen algoOpen : Nat → Bool) :
    RouteEvent M → StepResult M
  | .fromAlgo ⟨.All, m⟩ =>
    let (s, p) := trySends commsOpen (fun i => .toComms i m)
      (List.range ms.commsCount)
    if p then .panicked s else .ok s false
  | .fromAlgo ⟨.Node i, m⟩ =>
    if i = 0 then .panicked []
    else
      let j := i - 1
      if j < ms.commsCount then
        if commsOpen j then .ok [.toComms j m] false
        else .panicked []
      else .ok [] true
  | .fromComms sm =>
    let (s, p) := trySends algoOpen (fun i => .toAlgo i sm)
      (List.range ms.algoCount)
    if p then .panicked s else .ok s false

/-! ## Helper lemmas -/

/-- `LemmaProto::from_proto` is total: every wire lemma decodes to `Some`,
because the only branch that could propagate a failure is the recursive
sub-lemma decode, which by induction never fails. -/
theorem lemma_from_proto_total :
    ∀ lp : LemmaProto, ∃ l, LemmaProto.from_proto lp = some l
  | .mk _ _ _ none => ⟨_, rfl⟩
  | .mk nh ls rs (some sp) => by
    obtain ⟨l, hl⟩ := lemma_from_proto_total sp
    refine ⟨Lemma.mk nh
      (match ls, rs with
        | some h, _ => some (.left h)
        | none, some h => some (.right h)
        | none, none => none) (some l), ?_⟩
    simp only [LemmaProto.from_proto, hl, Option.map_some']

/-- `ProofProto::from_proto` fails exactly when the lemma field is absent. -/
theorem proof_from_proto_eq_none_iff (pp : ProofProto) (algorithm : Nat) :
    ProofProto.from_proto pp algorithm = none ↔ pp.lem = none := by
  cases h : pp.lem with
  | none => simp [ProofProto.from_proto, h]
  | some lp =>
    obtain ⟨l, hl⟩ := lemma_from_proto_total lp
    simp [ProofProto.from_proto, h, hl]

/-- `BroadcastMessage::from_proto` fails exactly on: no variant field set;
a `value` whose (taken) proof lacks a lemma; or an `echo` (with no `value`)
whose proof lacks a lemma. -/
theorem broadcast_from_proto_eq_none_iff (bp : BroadcastProto)
    (algorithm : Nat) :
    BroadcastMessage.from_proto bp algorithm = none ↔
      (bp.value = none ∧ bp.echo = none ∧ bp.ready = none)
      ∨ (∃ vp, bp.value = some vp ∧ vp.take_proof.lem = none)
      ∨ (∃ ep, bp.value = none ∧ bp.echo = some ep
          ∧ ep.take_proof.lem = none) := by
  obtain ⟨v, e, rdy⟩ := bp
  cases v with
  | some vp =>
    simp [BroadcastMessage.from_proto, Option.map_eq_none',
      proof_from_proto_eq_none_iff]
  | none =>
    cases e with
    | some ep =>
      simp [BroadcastMessage.from_proto, Option.map_eq_none',
        proof_from_proto_eq_none_iff]
    | none =>
      cases rdy with
      | some rp => simp [BroadcastMessage.from_proto]
      | none => simp [BroadcastMessage.from_proto]

/-- With the broadcast variant set, the top-level decode fails exactly when
the broadcast decode fails. -/
theorem message_from_proto_broadcast_fail_iff (algorithm : Nat)
    (bp : BroadcastProto) (a : Option AgreementProto) :
    Message.from_proto algorithm ⟨some bp, a⟩ = .fail ↔
      BroadcastMessage.from_proto bp algorithm = none := by
  cases hb : BroadcastMessage.from_proto bp algorithm with
  | some msg => simp [Message.from_proto, hb]
  | none => simp [Message.from_proto, hb]

/-- Unfolding of `trySends` on a cons cell. -/
theorem trySends_cons (isOpen : Nat → Bool) (mk : Nat → Send M) (i : Nat)
    (rest : List Nat) :
    trySends isOpen mk (i :: rest) =
      if isOpen i then
        (mk i :: (trySends isOpen mk rest).1, (trySends isOpen mk rest).2)
      else ([], true) := by
  cases h : trySends isOpen mk rest with
  | mk s p => simp [trySends, h]

/-- When every listed channel is open, the fan-out sends to each of them in
order and does not panic. -/
theorem trySends_all_open (isOpen : Nat → Bool) (mk : Nat → Send M) :
    ∀ l : List Nat, (∀ i ∈ l, isOpen i = true) →
      trySends isOpen mk l = (l.map mk, false)
  | [], _ => rfl
  | i :: rest, h => by
    have hi : isOpen i = true := h i (List.mem_cons_self i rest)
    have ih := trySends_all_open isOpen mk rest
      (fun j hj => h j (List.mem_cons_of_mem i hj))
    simp [trySends_cons, hi, ih]

/-- When some listed channel is closed, the fan-out panics. -/
theorem trySends_panics (isOpen : Nat → Bool) (mk : Nat → Send M) :
    ∀ l : List Nat, (∃ i ∈ l, isOpen i = false) →
      (trySends isOpen mk l).2 = true
  | [], h => by simp at h
  | i :: rest, h => by
    by_cases hi : isOpen i = true
    · obtain ⟨j, hj, hjf⟩ := h
      rcases List.mem_cons.mp hj with rfl | hjr
      · rw [hi] at hjf; cases hjf
      · have ih := trySends_panics isOpen mk rest ⟨j, hjr, hjf⟩
        simp [trySends_cons, hi, ih]
    · simp [trySends_cons, hi]

/-- `Messaging.new` succeeds only on a nonzero node count, returning the
struct with `num_nodes - 1` comms channels and `num_nodes` algo channels. -/
theorem messaging_new_eq (N : Nat) (ms : Messaging)
    (hms : Messaging.new N = some ms) :
    N ≠ 0 ∧ ms = ⟨N, N - 1, N⟩ := by
  by_cases hN : N = 0
  · subst hN; simp [Messaging.new] at hms
  · refine ⟨hN, ?_⟩
    simp [Messaging.new, hN] at hms
    exact hms.symm

/-! ## Claim theorems -/

/-- C1: The claim says decode ∘ encode returns `Some` of a structurally
equal message for every well-formed `Message`, including `Ready`. The code
violates this for `Ready`: `BroadcastMessage::into_proto` constructs a
`ReadyProto` and sets its root hash but never calls `b.set_ready(r)`, so
the encoded proto has no variant set and `Message::from_proto` returns
`None` instead of the original `Ready` message. This theorem evaluates the
code at the failing input `Broadcast(Ready([7]))`. -/
theorem ready_round_trip_fails :
    BroadcastMessage.into_proto (.Ready [7])
      = BroadcastProto.mk none none none
    ∧ Message.from_proto 0 (Message.into_proto (.Broadcast (.Ready [7])))
      = .fail :=
  ⟨rfl, rfl⟩

/-- C2 counterexample: a non-terminal wire `Lemma` (it has a sub-lemma)
with BOTH sibling tags set decodes successfully — to a lemma with a `Left`
sibling — and the containing `Proof` and `Message` decode to `Some` as
well, contradicting the claim that such input decodes to nothing. -/
theorem lemma_both_siblings_still_decodes :
    LemmaProto.from_proto
        (.mk [1] (some [2]) (some [3]) (some (.mk [4] none none none)))
      = some (.mk [1] (some (.left [2])) (some (.mk [4] none none)))
    ∧ Message.from_proto 0
        (MessageProto.mk
          (some (BroadcastProto.mk
            (some (ValueProto.mk (some (ProofProto.mk [9]
              (some (LemmaProto.mk [1] (some [2]) (some [3])
                (some (.mk [4] none none none)))) [5]))))
            none none))
          none)
      = .ok (.Broadcast (.Value (Proof.new 0 [9]
          (.mk [1] (some (.left [2])) (some (.mk [4] none none))) [5]))) :=
  ⟨rfl, rfl⟩

/-- C2 amended: decoding a wire `Lemma` never fails, whatever its sibling
tags. With both sibling tags set the `Left` tag takes precedence; with
neither tag set the decoded lemma has no sibling hash. -/
theorem lemma_decode_never_fails (lp : LemmaProto) (nh l r : Bytes)
    (sub : Option LemmaProto) :
    (LemmaProto.from_proto lp).isSome = true
    ∧ (LemmaProto.from_proto (.mk nh (some l) (some r) sub)).map
        Lemma.sibling_hash = some (some (.left l))
    ∧ (LemmaProto.from_proto (.mk nh none none sub)).map
        Lemma.sibling_hash = some none := by
  obtain ⟨l0, hl0⟩ := lemma_from_proto_total lp
  refine ⟨by simp [hl0], ?_, ?_⟩
  · cases sub with
    | none => rfl
    | some sp =>
      obtain ⟨sl, hsl⟩ := lemma_from_proto_total sp
      simp [LemmaProto.from_proto, hsl, Lemma.sibling_hash]
  · cases sub with
    | none => rfl
    | some sp =>
      obtain ⟨sl, hsl⟩ := lemma_from_proto_total sp
      simp [LemmaProto.from_proto, hsl, Lemma.sibling_hash]

/-- C3: `Message::from_proto` returns `None` exactly on the listed
malformed shapes: neither top-level variant set; a broadcast with none of
value/echo/ready set; or a value (resp. echo, when no value is present)
whose embedded/taken proof proto lacks a lemma. (An agreement-only proto
panics in the unimplemented decoder, a distinct outcome from `None`.) -/
theorem message_decode_fails_closed_iff (algorithm : Nat)
    (proto : MessageProto) :
    Message.from_proto algorithm proto = .fail ↔
      (proto.broadcast = none ∧ proto.agreement = none)
      ∨ (∃ bp, proto.broadcast = some bp
          ∧ bp.value = none ∧ bp.echo = none ∧ bp.ready = none)
      ∨ (∃ bp vp, proto.broadcast = some bp ∧ bp.value = some vp
          ∧ vp.take_proof.lem = none)
      ∨ (∃ bp ep, proto.broadcast = some bp ∧ bp.value = none
          ∧ bp.echo = some ep ∧ ep.take_proof.lem = none) := by
  obtain ⟨b, a⟩ := proto
  cases b with
  | none =>
    cases a with
    | none => simp [Message.from_proto]
    | some ag => simp [Message.from_proto]
  | some bp =>
    rw [message_from_proto_broadcast_fail_iff,
      broadcast_from_proto_eq_none_iff]
    constructor
    · rintro (h | ⟨vp, hv, hl⟩ | ⟨ep, hv, he, hl⟩)
      · exact Or.inr (Or.inl ⟨bp, rfl, h.1, h.2.1, h.2.2⟩)
      · exact Or.inr (Or.inr (Or.inl ⟨bp, vp, rfl, hv, hl⟩))
      · exact Or.inr (Or.inr (Or.inr ⟨bp, ep, rfl, hv, he, hl⟩))
    · rintro (⟨h, -⟩ | ⟨bp', hbp', h1, h2, h3⟩ | ⟨bp', vp, hbp', h1, h2⟩
        | ⟨bp', ep, hbp', h1, h2, h3⟩)
      · simp at h
      · obtain rfl := Option.some.inj hbp'
        exact Or.inl ⟨h1, h2, h3⟩
      · obtain rfl := Option.some.inj hbp'
        exact Or.inr (Or.inl ⟨vp, h1, h2⟩)
      · obtain rfl := Option.some.inj hbp'
        exact Or.inr (Or.inr ⟨ep, h1, h2, h3⟩)

/-- C4: a `Target::All` message is sent, unchanged, once to each of the
`N - 1` comms outboxes (in index order) and to no algo inbox, and the loop
continues without error. -/
theorem route_all_fanout (N : Nat) (ms : Messaging)
    (hms : Messaging.new N = some ms) (commsOpen algoOpen : Nat → Bool)
    (hopen : ∀ i, i < ms.commsCount → commsOpen i = true) (m : M) :
    ms.routeStep commsOpen algoOpen (.fromAlgo ⟨.All, m⟩)
      = .ok ((List.range (N - 1)).map (fun i => .toComms i m)) false := by
  obtain ⟨hN, hms'⟩ := messaging_new_eq N ms hms
  subst hms'
  have ht := trySends_all_open commsOpen (fun i => Send.toComms i m)
    (List.range (N - 1)) (fun i hi => hopen i (List.mem_range.mp hi))
  simp [Messaging.routeStep, ht]

/-- C4 witness at `N = 4`. -/
theorem route_all_fanout_witness :
    Messaging.new 4 = some ⟨4, 3, 4⟩
    ∧ Messaging.routeStep ⟨4, 3, 4⟩ (fun _ => true) (fun _ => true)
        (.fromAlgo ⟨.All, (5 : Nat)⟩)
      = .ok ((List.range 3).map (fun i => .toComms i 5)) false :=
  ⟨by decide,
   route_all_fanout 4 ⟨4, 3, 4⟩ (by decide) _ _ (fun i _ => rfl) 5⟩

/-- C5: a `Target::Node(i)` message with `1 ≤ i ≤ N - 1` is sent exactly
once, to comms outbox `i - 1` only; for `i ≥ N` nothing is sent, the
routing error is logged, the message is dropped and the loop continues. -/
theorem route_node_targeted (N : Nat) (ms : Messaging)
    (hms : Messaging.new N = some ms) (commsOpen algoOpen : Nat → Bool)
    (m : M) :
    (∀ i, 1 ≤ i → i ≤ N - 1 → commsOpen (i - 1) = true →
      ms.routeStep commsOpen algoOpen (.fromAlgo ⟨.Node i, m⟩)
        = .ok [.toComms (i - 1) m] false)
    ∧ ∀ i, N ≤ i →
      ms.routeStep commsOpen algoOpen (.fromAlgo ⟨.Node i, m⟩)
        = .ok [] true := by
  obtain ⟨hN, hms'⟩ := messaging_new_eq N ms hms
  subst hms'
  constructor
  · intro i h1 h2 hop
    have hi0 : ¬ i = 0 := by omega
    have hlt : i - 1 < N - 1 := by omega
    simp [Messaging.routeStep, hi0, hlt, hop]
  · intro i hNi
    have hi0 : ¬ i = 0 := by omega
    have hge : ¬ (i - 1 < N - 1) := by omega
    simp [Messaging.routeStep, hi0, hge]

/-- C5 witness at `N = 4`, in-range target `i = 2` and out-of-range target
`i = 7`. -/
theorem route_node_targeted_witness :
    Messaging.new 4 = some ⟨4, 3, 4⟩
    ∧ Messaging.routeStep ⟨4, 3, 4⟩ (fun _ => true) (fun _ => true)
        (.fromAlgo ⟨.Node 2, (5 : Nat)⟩) = .ok [.toComms 1 5] false
    ∧ Messaging.routeStep ⟨4, 3, 4⟩ (fun _ => true) (fun _ => true)
        (.fromAlgo ⟨.Node 7, (5 : Nat)⟩) = .ok [] true :=
  ⟨by decide,
   (route_node_targeted 4 ⟨4, 3, 4⟩ (by decide) _ _ 5).1 2 (by decide)
     (by decide) rfl,
   (route_node_targeted 4 ⟨4, 3, 4⟩ (by decide) _ _ 5).2 7 (by decide)⟩

/-- C6: a `SourcedMessage` received from the comms side is forwarded,
unchanged (same source and message), once to each of the `N` algo inboxes
and to no comms outbox, and the loop continues without error. -/
theorem route_sourced_fanout (N : Nat) (ms : Messaging)
    (hms : Messaging.new N = some ms) (commsOpen algoOpen : Nat → Bool)
    (halgo : ∀ i, i < ms.algoCount → algoOpen i = true)
    (sm : SourcedMessage M) :
    ms.routeStep commsOpen algoOpen (.fromComms sm)
      = .ok ((List.range N).map (fun i => .toAlgo i sm)) false := by
  obtain ⟨hN, hms'⟩ := messaging_new_eq N ms hms
  subst hms'
  have ht := trySends_all_open algoOpen (fun i => Send.toAlgo i sm)
    (List.range N) (fun i hi => halgo i (List.mem_range.mp hi))
  simp [Messaging.routeStep, ht]

/-- C6 witness at `N = 4`, source 2. -/
theorem route_sourced_fanout_witness :
    Messaging.new 4 = some ⟨4, 3, 4⟩
    ∧ Messaging.routeStep ⟨4, 3, 4⟩ (fun _ => true) (fun _ => true)
        (.fromComms ⟨2, (5 : Nat)⟩)
      = .ok ((List.range 4).map (fun i => .toAlgo i ⟨2, 5⟩)) false :=
  ⟨by decide,
   route_sourced_fanout 4 ⟨4, 3, 4⟩ (by decide) _ _ (fun i _ => rfl) ⟨2, 5⟩⟩

/-- C7: `TargetedMessage::new` returns `None` if and only if the target is
`Node(0)`; for every other target it returns `Some` of a message carrying
exactly the given target and message. -/
theorem targeted_message_new_spec (t : Target) (m : M) :
    (TargetedMessage.new t m = none ↔ t = Target.Node 0)
    ∧ TargetedMessage.new t m
      = if t = Target.Node 0 then none else some ⟨t, m⟩ := by
  cases t with
  | All => simp [TargetedMessage.new]
  | Node i =>
    cases i with
    | zero => simp [TargetedMessage.new]
    | succ n => simp [TargetedMessage.new]

/-- C8: a send on a channel whose receive side is closed is fatal at all
three send sites of the routing loop — the `Target::All` fan-out to comms,
the targeted send to one comms outbox, and the fan-out to the algo inboxes
— the loop panics (via `.unwrap()`) instead of logging and continuing. -/
theorem closed_channel_send_fatal (N : Nat) (ms : Messaging)
    (hms : Messaging.new N = some ms) (commsOpen algoOpen : Nat → Bool)
    (m : M) (sm : SourcedMessage M) :
    (∀ j, j < ms.commsCount → commsOpen j = false →
      ∃ s, ms.routeStep commsOpen algoOpen (.fromAlgo ⟨.All, m⟩)
        = .panicked s)
    ∧ (∀ i, 1 ≤ i → i ≤ N - 1 → commsOpen (i - 1) = false →
      ms.routeStep commsOpen algoOpen (.fromAlgo ⟨.Node i, m⟩)
        = .panicked [])
    ∧ ∀ j, j < ms.algoCount → algoOpen j = false →
      ∃ s, ms.routeStep commsOpen algoOpen (.fromComms sm)
        = .panicked s := by
  obtain ⟨hN, hms'⟩ := messaging_new_eq N ms hms
  subst hms'
  refine ⟨?_, ?_, ?_⟩
  · intro j hj hcl
    have hp := trySends_panics commsOpen (fun i => Send.toComms i m)
      (List.range (N - 1)) ⟨j, List.mem_range.mpr hj, hcl⟩
    cases htr : trySends commsOpen (fun i => Send.toComms i m)
        (List.range (N - 1)) with
    | mk s p =>
      rw [htr] at hp
      exact ⟨s, by simp [Messaging.routeStep, htr, hp]⟩
  · intro i h1 h2 hcl
    have hi0 : ¬ i = 0 := by omega
    have hlt : i - 1 < N - 1 := by omega
    simp [Messaging.routeStep, hi0, hlt, hcl]
  · intro j hj hcl
    have hp := trySends_panics algoOpen (fun i => Send.toAlgo i sm)
      (List.range N) ⟨j, List.mem_range.mpr hj, hcl⟩
    cases htr : trySends algoOpen (fun i => Send.toAlgo i sm)
        (List.range N) with
    | mk s p =>
      rw [htr] at hp
      exact ⟨s, by simp [Messaging.routeStep, htr, hp]⟩

/-- C8 witness at `N = 4` with comms outbox 1 and algo inbox 0 closed. -/
theorem closed_channel_send_fatal_witness :
    Messaging.new 4 = some ⟨4, 3, 4⟩
    ∧ (∃ s, Messaging.routeStep ⟨4, 3, 4⟩ (fun j => decide (j ≠ 1))
        (fun j => decide (j ≠ 0)) (.fromAlgo ⟨.All, (5 : Nat)⟩)
        = .panicked s)
    ∧ Messaging.routeStep ⟨4, 3, 4⟩ (fun j => decide (j ≠ 1))
        (fun j => decide (j ≠ 0)) (.fromAlgo ⟨.Node 2, (5 : Nat)⟩)
        = .panicked []
    ∧ ∃ s, Messaging.routeStep ⟨4, 3, 4⟩ (fun j => decide (j ≠ 1))
        (fun j => decide (j ≠ 0)) (.fromComms ⟨2, (5 : Nat)⟩)
        = .panicked s :=
  ⟨by decide,
   (closed_channel_send_fatal 4 ⟨4, 3, 4⟩ (by decide) _ _ 5 ⟨2, 5⟩).1
     1 (by decide) (by decide),
   (closed_channel_send_fatal 4 ⟨4, 3, 4⟩ (by decide) _ _ 5 ⟨2, 5⟩).2.1
     2 (by decide) (by decide) (by decide),
   (closed_channel_send_fatal 4 ⟨4, 3, 4⟩ (by decide) _ _ 5 ⟨2, 5⟩).2.2
     0 (by decide) (by decide)⟩

/-- C9: `Messaging::new` is partial in `num_nodes`: at 0 the `usize`
subtraction `num_nodes - 1` underflows and the constructor panics; for
every `num_nodes ≥ 1` it returns a struct with exactly `num_nodes - 1`
comms channels, `num_nodes` algo channels, and `num_nodes()` equal to the
argument. -/
theorem messaging_new_spec (n : Nat) :
    Messaging.new 0 = none
    ∧ (1 ≤ n → ∃ ms, Messaging.new n = some ms
        ∧ ms.commsCount = n - 1 ∧ ms.algoCount = n ∧ ms.num_nodes = n) := by
  refine ⟨rfl, fun hn => ⟨⟨n, n - 1, n⟩, ?_, rfl, rfl, rfl⟩⟩
  have : ¬ n = 0 := by omega
  simp [Messaging.new, this]

/-- C9 witness at `n = 4`. -/
theorem messaging_new_spec_witness :
    Messaging.new 0 = none
    ∧ ∃ ms, Messaging.new 4 = some ms
        ∧ ms.commsCount = 3 ∧ ms.algoCount = 4 ∧ ms.num_nodes = 4 :=
  ⟨(messaging_new_spec 4).1, (messaging_new_spec 4).2 (by decide)⟩

/-- C10: a `TargetedMessage` with target `Node(0)` reaching the routing
loop makes the `assert!(i > 0)` fail: the step panics with no sends, for
every channel state — it is not logged-and-dropped like an out-of-range
destination. -/
theorem route_node_zero_panics (ms : Messaging)
    (commsOpen algoOpen : Nat → Bool) (m : M) :
    ms.routeStep commsOpen algoOpen (.fromAlgo ⟨.Node 0, m⟩)
      = .panicked [] := by
  simp [Messaging.routeStep]

end Hbbft
